import Mathlib

/-!
Shallow embedding of `src/Shader.hpp` (namespace `sh`): a single-header GLSL
shader class with stage splitting (`createProgram`), an `INCLUDE "file"`
preprocessor (`loadSourceFromFile`), a uniform-location table, and a
file-watching hot-reload state machine (`reload` / `hotReload` / `bind`).

Modelling conventions:
* `std::string` is `List Char`; `std::string::substr(pos, count)` is
  `(s.drop pos).take count` (the standard clamps `count` to `size - pos`;
  `substr(pos, npos)` is the suffix from `pos`).
* `size_t` arithmetic that can wrap (the code subtracts offsets and adds 1 to
  `npos`) is modelled explicitly with `size_t_sub` and reduction mod `2 ^ 64`.
* `std::string::find` returning `npos` is modelled as `Option Nat` where the
  code only compares against `npos`, and as the numeric `npos` value where the
  code does arithmetic on the result (in `loadSourceFromFile`).
* The OpenGL driver is an oracle `Env` (compile/link outcomes, fresh program
  id, active-uniform introspection, file system); GL calls that create or
  destroy objects are recorded in a trace of `GLOp` so that resource-cleanup
  claims are statements about the trace.  `glCreateShader` ids are allocated
  deterministically as 1, 2, … within one `createProgram` call.
* `float` time accumulation is modelled over `ℚ`; `fs::file_time_type` over
  `Int` with `fileTimeMin` playing `file_time_type::min()` (the value
  `fs::last_write_time` yields on failure).
* The unbounded recursions of the C++ (`loadSourceFromFile` on include chains,
  `std::string::find` scans) take an explicit fuel / bounded index so that all
  definitions are structurally recursive and kernel-evaluable.
-/

namespace sh

/-- Value of `std::string::npos` for a 64-bit `size_t`. -/
def npos : Nat := 2 ^ 64 - 1

/-- Subtraction of `size_t` values, `a - b` (wraps modulo `2 ^ 64`; both operands of the
C++ code are below `2 ^ 64`). -/
def size_t_sub (a b : Nat) : Nat := if b ≤ a then a - b else 2 ^ 64 + a - b

/-- Does `pat` occur in `s` starting at index `i`?  (`substr`-style test used
by `std::string::find`.) -/
def matchesAt (s pat : List Char) (i : Nat) : Bool :=
  decide ((s.drop i).take pat.length = pat)

/-- Scan of `std::string::find(pat, i)`: first index `≥ i` where `pat` occurs,
bounded by fuel so the recursion is structural. -/
def findSubAux (s pat : List Char) : Nat → Nat → Option Nat
  | 0, _ => none
  | fuel + 1, i => if matchesAt s pat i then some i else findSubAux s pat fuel (i + 1)

/-- Model of `std::string::find(pat)`: index of the first occurrence of `pat` in `s`,
`none` standing for `npos`. -/
def findSub (s pat : List Char) : Option Nat := findSubAux s pat (s.length + 1) 0

/-- Scan of `std::string::find(c, i)` for a single character. -/
def findCharAux (s : List Char) (c : Char) : Nat → Nat → Option Nat
  | 0, _ => none
  | fuel + 1, i => if s[i]? = some c then some i else findCharAux s c fuel (i + 1)

/-- Model of `std::string::find(c, i)` as an `Option`. -/
def findCharFrom (s : List Char) (c : Char) (i : Nat) : Option Nat :=
  findCharAux s c (s.length + 1) i

/-- Model of `std::string::find(c, i)` with the numeric `npos` convention, as used by
`loadSourceFromFile`, which does arithmetic on the result. -/
def strFind (s : List Char) (c : Char) (i : Nat) : Nat :=
  (findCharFrom s c i).getD npos

/-! ### Stage keywords (`shaderTypes` table of `createProgram`) -/

def kwVERTEX : List Char := ['V', 'E', 'R', 'T', 'E', 'X']

def kwGEOMETRY : List Char := ['G', 'E', 'O', 'M', 'E', 'T', 'R', 'Y']

def kwFRAGMENT : List Char := ['F', 'R', 'A', 'G', 'M', 'E', 'N', 'T']

def kwCOMPUTE : List Char := ['C', 'O', 'M', 'P', 'U', 'T', 'E']

/-- The `INCLUDE` directive token of `loadSourceFromFile`. -/
def kwINCLUDE : List Char := ['I', 'N', 'C', 'L', 'U', 'D', 'E']

/-- Mirror of `struct ShaderType { GLenum value_; std::string name_; }`. -/
structure ShaderType where
  value : Nat
  name : List Char
deriving DecidableEq

def GL_VERTEX_SHADER : Nat := 0x8B31

def GL_GEOMETRY_SHADER : Nat := 0x8DD9

def GL_FRAGMENT_SHADER : Nat := 0x8B30

def GL_COMPUTE_SHADER : Nat := 0x91B9

def vertexType : ShaderType := ⟨GL_VERTEX_SHADER, kwVERTEX⟩

def geometryType : ShaderType := ⟨GL_GEOMETRY_SHADER, kwGEOMETRY⟩

def fragmentType : ShaderType := ⟨GL_FRAGMENT_SHADER, kwFRAGMENT⟩

def computeType : ShaderType := ⟨GL_COMPUTE_SHADER, kwCOMPUTE⟩

/-- Mirror of `static const ShaderType shaderTypes[]` of `createProgram`. -/
def shaderTypes : List ShaderType := [vertexType, geometryType, fragmentType, computeType]

/-- Mirror of `struct ShaderData { std::size_t sourceStart_; const ShaderType* type_; }`:
`sourceStart` is the index just past the keyword's first occurrence. -/
structure ShaderData where
  sourceStart : Nat
  type : ShaderType
deriving DecidableEq

/-- The marker-collection loop of `createProgram`: for each entry of
`shaderTypes`, if `source.find(name)` succeeds, record
`{pos + name.size(), &type}`. -/
def collectStages (source : List Char) : List ShaderData :=
  shaderTypes.filterMap fun st =>
    (findSub source st.name).map fun pos => ⟨pos + st.name.length, st⟩

/-- Comparator of the `std::sort` call: ascending `sourceStart_`. -/
def sdLE (a b : ShaderData) : Prop := a.sourceStart ≤ b.sourceStart

instance : DecidableRel sdLE := fun a b => Nat.decLe a.sourceStart b.sourceStart

instance : IsTotal ShaderData sdLE := ⟨fun a b => Nat.le_total a.sourceStart b.sourceStart⟩

instance : IsTrans ShaderData sdLE := ⟨fun _ _ _ hab hbc => Nat.le_trans hab hbc⟩

/-- The `std::sort(shaderData.begin(), shaderData.end(), …)` call (the
comparator keys are provably distinct whenever the slices are consumed, so any
sort realises it; we use insertion sort). -/
def sortStages (l : List ShaderData) : List ShaderData := List.insertionSort sdLE l

/-- The slicing part of the compile loop of `createProgram`: for each entry,
`count = npos` for the last entry and
`next.sourceStart_ - next.name_.size() - it->sourceStart_` (in `size_t`)
otherwise, and the slice is `source.substr(it->sourceStart_, count)`
(`substr(pos, npos)` is the suffix from `pos`). -/
def stageSlices (source : List Char) : List ShaderData → List (ShaderData × List Char)
  | [] => []
  | [d] => [(d, source.drop d.sourceStart)]
  | d :: d2 :: rest =>
      (d, (source.drop d.sourceStart).take
            (size_t_sub (size_t_sub d2.sourceStart d2.type.name.length) d.sourceStart))
        :: stageSlices source (d2 :: rest)

/-- The stage splitter of `createProgram`: collect first occurrences of the
four markers, sort by `sourceStart_`, slice the source between them. -/
def splitStages (source : List Char) : List (ShaderData × List Char) :=
  stageSlices source (sortStages (collectStages source))

/-! ### GL effect trace and the compile/link pipeline -/

/-- Resource-affecting GL calls issued by the code, recorded as a trace. -/
inductive GLOp where
  | createShader (id : Nat)
  | compileShader (id : Nat)
  | deleteShader (id : Nat)
  | createProgramObj (id : Nat)
  | attachShader (program shader : Nat)
  | linkProgram (id : Nat)
  | detachShader (program shader : Nat)
  | deleteProgram (id : Nat)
  | useProgram (id : Nat)
deriving DecidableEq

/-- The external collaborators: driver outcomes and the file system.
`fileTime` is the value `fs::last_write_time` yields (`fileTimeMin` on
failure); `fileContents` is `none` when `ifstream` cannot open the file;
`freshProgram` is the id `glCreateProgram` hands out; `uniforms` is the
active-uniform introspection (`glGetActiveUniform` names with their
`glGetUniformLocation` locations) of the program linked from a source. -/
structure Env where
  fileTime : List Char → Int
  fileContents : List Char → Option (List Char)
  compileOk : Nat → List Char → Bool
  linkOk : List (Nat × List Char) → Bool
  freshProgram : Nat
  uniforms : List Char → List (List Char × Int)

/-- The compile loop of `createProgram` over the already-sliced stages:
`createAndCompileShader` for each slice (ids `nextId, nextId+1, …`), recording
whether any compilation failed (`getError<false>` on each shader, so every
stage is compiled and has its diagnostic emitted before any cleanup).
Returns (shader ids, (compilationError, trace)). -/
def compileLoop (env : Env) : List (ShaderData × List Char) → Nat → List Nat × (Bool × List GLOp)
  | [], _ => ([], (false, []))
  | (d, src) :: rest, nextId =>
      let ok := env.compileOk d.type.value src
      let r := compileLoop env rest (nextId + 1)
      (nextId :: r.1,
       ((!ok) || r.2.1,
        GLOp.createShader nextId :: GLOp.compileShader nextId :: r.2.2))

/-- The tail of `createProgram` after slicing: compile all stages; on any
compile failure delete every created shader and return 0; otherwise create a
program, attach, link, detach and delete every shader, and on link failure
(`getError<true>`) delete the program and return 0. -/
def buildFromSlices (env : Env) (slices : List (ShaderData × List Char)) : Nat × List GLOp :=
  let r := compileLoop env slices 1
  if r.2.1 then
    (0, r.2.2 ++ r.1.map GLOp.deleteShader)
  else
    let p := env.freshProgram
    let tr := r.2.2 ++ [GLOp.createProgramObj p] ++ r.1.map (GLOp.attachShader p)
        ++ [GLOp.linkProgram p]
        ++ (r.1.map fun sid => [GLOp.detachShader p sid, GLOp.deleteShader sid]).flatten
    if env.linkOk (slices.map fun x => (x.1.type.value, x.2)) then (p, tr)
    else (0, tr ++ [GLOp.deleteProgram p])

/-- Model of `GLuint createProgram(const std::string& source, const std::string& id)`:
split the source into stage slices, then compile/link.  Returns 0 on error. -/
def createProgram (env : Env) (source : List Char) : Nat × List GLOp :=
  buildFromSlices env (splitStages source)

/-! ### std::map<std::string, GLint> model -/

/-- Model of `std::map::operator[] = v`: overwrite if the key is present, otherwise
add the entry. -/
def mapInsert : List (List Char × Int) → List Char → Int → List (List Char × Int)
  | [], k, v => [(k, v)]
  | (k1, v1) :: rest, k, v =>
      if k1 = k then (k, v) :: rest else (k1, v1) :: mapInsert rest k v

/-- Model of `std::map::find`. -/
def lookupTable (m : List (List Char × Int)) (k : List Char) : Option Int :=
  (m.find? fun kv => decide (kv.1 = k)).map Prod.snd

/-- The uniform-introspection loop at the end of `swapProgram`:
`uniformLocations_[name] = glGetUniformLocation(...)` for each active
uniform. -/
def buildTable (us : List (List Char × Int)) : List (List Char × Int) :=
  us.foldl (fun m kv => mapInsert m kv.1 kv.2) []

/-! ### The Shader class -/

/-- Value of `fs::file_time_type::min()`, which is also what `fs::last_write_time`
returns when it fails (the code compares the fetched time against it). -/
def fileTimeMin : Int := -(2 ^ 63)

/-- Model of `getFileLastWriteTime`: returns what `fs::last_write_time` yields; a
failure was already folded into the value `fileTimeMin` (the function only
logs on error). -/
def getFileLastWriteTime (env : Env) (filename : List Char) : Int :=
  env.fileTime filename

/-- Model of `loadSourceFromFile`: read the file; if the text contains `INCLUDE`,
locate the first occurrence, take the line end (`find('\n') + 1`, where
`npos + 1` wraps to 0 in `size_t`), extract the quoted filename, recursively
load it, insert the included text at the line end and erase the directive
from the token to the line end.  Fuel bounds the include chain (the C++
recursion is unbounded). -/
def loadSourceFromFile (env : Env) : Nat → List Char → List Char
  | 0, _ => []
  | fuel + 1, filename =>
    match env.fileContents filename with
    | none => []
    | some source =>
      match findSub source kwINCLUDE with
      | none => source
      | some lineFirst =>
        let lineLast := (strFind source '\n' lineFirst + 1) % 2 ^ 64
        let filenameFirst := (strFind source '"' (lineFirst + kwINCLUDE.length) + 1) % 2 ^ 64
        let filenameCount := size_t_sub (strFind source '"' filenameFirst) filenameFirst
        let included :=
          loadSourceFromFile env fuel ((source.drop filenameFirst).take filenameCount)
        let source2 := source.take lineLast ++ included ++ source.drop lineLast
        source2.take lineFirst ++ source2.drop (lineFirst + size_t_sub lineLast lineFirst)

/-- The data members of `sh::Shader`. -/
structure Shader where
  id : List Char
  programId : Nat
  uniformLocations : List (List Char × Int)
  isSourceFromFile : Bool
  fileLastWriteTime : Int
  accumulator : ℚ
deriving DecidableEq

/-- Mirror of `bool isValid() const`, true iff the handle is nonzero. -/
def Shader.isValid (s : Shader) : Bool := decide (s.programId ≠ 0)

/-- Model of `GLint getUniformLocation(const std::string&) const`: on a miss the
method logs `"not active uniform"` and returns the value-initialised
`GLint{}`, that is 0.  The second component records whether the diagnostic
was emitted by this call. -/
def Shader.getUniformLocation (s : Shader) (uniformName : List Char) : Int × Bool :=
  match lookupTable s.uniformLocations uniformName with
  | none => (0, true)
  | some loc => (loc, false)

/-- Because `getUniformLocation` is a `const` member: two successive calls are the
same function of the same object (no field records past misses). -/
def Shader.callTwice (s : Shader) (uniformName : List Char) : (Int × Bool) × (Int × Bool) :=
  (s.getUniformLocation uniformName, s.getUniformLocation uniformName)

/-- Model of `void swapProgram(const std::string& source)`: run `createProgram`; keep
the old state if it returned 0; otherwise delete the previous program (the
`this->~Shader()` call), install the new id and rebuild the uniform table
from the new program's active uniforms. -/
def Shader.swapProgram (env : Env) (source : List Char) (s : Shader) : Shader × List GLOp :=
  let r := createProgram env source
  if r.1 = 0 then (s, r.2)
  else
    ({ s with programId := r.1, uniformLocations := buildTable (env.uniforms source) },
     r.2 ++ (if s.programId ≠ 0 then [GLOp.deleteProgram s.programId] else []))

/-- Model of `void reload()`: no-op for literal-sourced shaders; fetch the
modification time; no-op when it equals `file_time_type::min()` (fetch
failure) or the recorded time; otherwise record the new time, reload the
source and, when non-empty, `swapProgram`. -/
def Shader.reload (env : Env) (fuel : Nat) (s : Shader) : Shader × List GLOp :=
  if s.isSourceFromFile = false then (s, [])
  else
    let time := getFileLastWriteTime env s.id
    if time = fileTimeMin ∨ time = s.fileLastWriteTime then (s, [])
    else
      let s1 := { s with fileLastWriteTime := time }
      let source := loadSourceFromFile env fuel s.id
      if source.length ≠ 0 then Shader.swapProgram env source s1 else (s1, [])

/-- Model of `void hotReload(float frameTimeS)`: add the frame time to the
accumulator; when it reaches `FilePollDelay = 1`, zero the accumulator and
call `reload()`. -/
def Shader.hotReload (env : Env) (fuel : Nat) (frameTimeS : ℚ) (s : Shader) :
    Shader × List GLOp :=
  let acc := s.accumulator + frameTimeS
  if acc ≥ 1 then Shader.reload env fuel { s with accumulator := 0 }
  else ({ s with accumulator := acc }, [])

/-- The value `hotReload` hands back to its caller: the C++ signature is
`void hotReload(float)`, so the returned value is the unit, for every
environment and every state. -/
def Shader.hotReloadRet (_env : Env) (_fuel : Nat) (_frameTimeS : ℚ) (_s : Shader) : Unit := ()

/-- Mirror of `void bind()`, which only calls `glUseProgram(programId_)`. -/
def Shader.bind (s : Shader) : Shader × List GLOp :=
  (s, [GLOp.useProgram s.programId])

/-! ## Lemmas: first-occurrence characterisation -/

theorem findSubAux_some {s pat : List Char} :
    ∀ {fuel i p : Nat}, findSubAux s pat fuel i = some p →
      matchesAt s pat p = true ∧ i ≤ p ∧ ∀ q, i ≤ q → q < p → matchesAt s pat q = false := by
  intro fuel
  induction fuel with
  | zero => intro i p h; simp [findSubAux] at h
  | succ n ih =>
    intro i p h
    rw [findSubAux] at h
    by_cases hm : matchesAt s pat i = true
    · rw [if_pos hm] at h
      obtain rfl : i = p := Option.some.inj h
      exact ⟨hm, Nat.le_refl _, fun q hq1 hq2 => absurd hq1 (Nat.not_le.mpr hq2)⟩
    · rw [if_neg hm] at h
      obtain ⟨h1, h2, h3⟩ := ih h
      refine ⟨h1, Nat.le_trans (Nat.le_succ i) h2, fun q hq1 hq2 => ?_⟩
      rcases Nat.eq_or_lt_of_le hq1 with rfl | hq
      · exact Bool.eq_false_iff.mpr hm
      · exact h3 q hq hq2

theorem findSub_some {s pat : List Char} {p : Nat} (h : findSub s pat = some p) :
    matchesAt s pat p = true ∧ ∀ q, q < p → matchesAt s pat q = false := by
  obtain ⟨h1, _, h3⟩ := @findSubAux_some s pat (s.length + 1) 0 p h
  exact ⟨h1, fun q hq => h3 q (Nat.zero_le q) hq⟩

theorem matchesAt_bound {s pat : List Char} {i : Nat} (h : matchesAt s pat i = true)
    (hne : pat ≠ []) : i + pat.length ≤ s.length := by
  have heq : (s.drop i).take pat.length = pat := by
    have := of_decide_eq_true h
    exact this
  have hlen : min pat.length (s.length - i) = pat.length := by
    have := congrArg List.length heq
    simpa [List.length_take, List.length_drop] using this
  have hle : pat.length ≤ s.length - i := min_eq_left_iff.mp hlen
  have hpos : 0 < pat.length := List.length_pos.mpr hne
  have hi : i < s.length := by
    have : 0 < s.length - i := Nat.lt_of_lt_of_le hpos hle
    omega
  omega

theorem matchesAt_getElem {s pat : List Char} {i : Nat} (h : matchesAt s pat i = true)
    {j : Nat} (hj : j < pat.length) : s[i + j]? = pat[j]? := by
  have heq : (s.drop i).take pat.length = pat := of_decide_eq_true h
  calc s[i + j]? = (s.drop i)[j]? := (List.getElem?_drop s i j).symm
    _ = ((s.drop i).take pat.length)[j]? := (List.getElem?_take_of_lt hj).symm
    _ = pat[j]? := by rw [heq]

/-! ## Lemmas: the four stage keywords cannot overlap in any source

Distinct keywords of the `shaderTypes` table never occupy overlapping ranges
of the same string: checked by enumerating every possible shift. -/

/-- Certificate `noOverlapB A B = true` means: at every shift `k < A.length`, some
character of `B` inside the window disagrees with `A`. -/
def noOverlapB (A B : List Char) : Bool :=
  (List.range A.length).all fun k =>
    (List.range (min B.length (A.length - k))).any fun j =>
      decide (B[j]? ≠ A[k + j]?)

theorem no_overlap_of_matches {s A B : List Char} {p q : Nat}
    (hAB : noOverlapB A B = true)
    (hA : matchesAt s A p = true) (hB : matchesAt s B q = true)
    (hpq : p ≤ q) (hlt : q < p + A.length) : False := by
  have hk : q - p < A.length := by omega
  have hall := List.all_eq_true.mp hAB (q - p) (List.mem_range.mpr hk)
  obtain ⟨j, hjmem, hjne⟩ := List.any_eq_true.mp hall
  have hj := List.mem_range.mp hjmem
  have hjB : j < B.length := lt_of_lt_of_le hj (Nat.min_le_left _ _)
  have hjA : q - p + j < A.length := by
    have := lt_of_lt_of_le hj (Nat.min_le_right _ _)
    omega
  have e1 : s[q + j]? = B[j]? := matchesAt_getElem hB hjB
  have e2 : s[p + (q - p + j)]? = A[q - p + j]? := matchesAt_getElem hA hjA
  rw [show p + (q - p + j) = q + j by omega] at e2
  exact of_decide_eq_true hjne (e1 ▸ e2)

theorem disjoint_of_matches {s A B : List Char} {p q : Nat}
    (hAB : noOverlapB A B = true) (hBA : noOverlapB B A = true)
    (hA : matchesAt s A p = true) (hB : matchesAt s B q = true) :
    p + A.length ≤ q ∨ q + B.length ≤ p := by
  rcases Nat.le_total p q with h | h
  · left
    by_contra hc
    exact no_overlap_of_matches hAB hA hB h (Nat.lt_of_not_le hc)
  · right
    by_contra hc
    exact no_overlap_of_matches hBA hB hA h (Nat.lt_of_not_le hc)

theorem kw_noOverlap :
    ∀ A ∈ [kwVERTEX, kwGEOMETRY, kwFRAGMENT, kwCOMPUTE],
      ∀ B ∈ [kwVERTEX, kwGEOMETRY, kwFRAGMENT, kwCOMPUTE],
        A ≠ B → noOverlapB A B = true := by decide

/-- If occurrences of two distinct keywords both fit in `s` and the first
ends no later than the second ends, the first ends before the second
begins. -/
theorem pair_step {source A B : List Char} {pA pB : Nat}
    (hA : matchesAt source A pA = true) (hB : matchesAt source B pB = true)
    (hAB : noOverlapB A B = true) (hBA : noOverlapB B A = true)
    (hApos : A ≠ []) (hle : pA + A.length ≤ pB + B.length) :
    pA + A.length ≤ pB := by
  rcases disjoint_of_matches hAB hBA hA hB with h | h
  · exact h
  · have : 0 < A.length := List.length_pos.mpr hApos
    omega

theorem size_t_sub_of_le {a b : Nat} (h : b ≤ a) : size_t_sub a b = a - b := if_pos h

theorem kwVERTEX_length : kwVERTEX.length = 6 := rfl

theorem kwGEOMETRY_length : kwGEOMETRY.length = 8 := rfl

theorem kwFRAGMENT_length : kwFRAGMENT.length = 8 := rfl

theorem kwCOMPUTE_length : kwCOMPUTE.length = 7 := rfl

theorem collectStages_eq {source : List Char} {pv pg pf pc : Nat}
    (hv : findSub source kwVERTEX = some pv)
    (hg : findSub source kwGEOMETRY = some pg)
    (hf : findSub source kwFRAGMENT = some pf)
    (hc : findSub source kwCOMPUTE = some pc) :
    collectStages source =
      [⟨pv + 6, vertexType⟩, ⟨pg + 8, geometryType⟩, ⟨pf + 8, fragmentType⟩,
       ⟨pc + 7, computeType⟩] := by
  simp [collectStages, shaderTypes, List.filterMap_cons, vertexType, geometryType,
    fragmentType, computeType, kwVERTEX_length, kwGEOMETRY_length, kwFRAGMENT_length,
    kwCOMPUTE_length, hv, hg, hf, hc]

theorem sd_ne_of_type_ne {a b : Nat} {T U : ShaderType} (h : T ≠ U) :
    (⟨a, T⟩ : ShaderData) ≠ ⟨b, U⟩ := fun heq => h (congrArg ShaderData.type heq)

theorem collect_nodup {pv pg pf pc : Nat} :
    ([⟨pv + 6, vertexType⟩, ⟨pg + 8, geometryType⟩, ⟨pf + 8, fragmentType⟩,
      ⟨pc + 7, computeType⟩] : List ShaderData).Nodup := by
  refine List.nodup_cons.mpr ⟨?_, List.nodup_cons.mpr ⟨?_, List.nodup_cons.mpr
    ⟨?_, List.nodup_singleton _⟩⟩⟩ <;>
    simp only [List.mem_cons, List.not_mem_nil, or_false, not_or]
  · exact ⟨sd_ne_of_type_ne (by decide), sd_ne_of_type_ne (by decide),
      sd_ne_of_type_ne (by decide)⟩
  · exact ⟨sd_ne_of_type_ne (by decide), sd_ne_of_type_ne (by decide)⟩
  · exact sd_ne_of_type_ne (by decide)

theorem exists_four {α : Type} {l : List α} (h : l.length = 4) :
    ∃ a b c d, l = [a, b, c, d] := by
  rcases l with _ | ⟨a, l⟩
  · simp at h
  rcases l with _ | ⟨b, l⟩
  · simp at h
  rcases l with _ | ⟨c, l⟩
  · simp at h
  rcases l with _ | ⟨d, l⟩
  · simp at h
  rcases l with _ | ⟨e, l⟩
  · exact ⟨a, b, c, d, rfl⟩
  · simp [List.length_cons] at h

/-- Helper for the slice-boundary goals: the first occurrence ends no later
than the second ends, hence it ends before the second begins. -/
theorem pair_goal {source A B : List Char} {pA pB : Nat}
    (hA : matchesAt source A pA = true) (hB : matchesAt source B pB = true)
    (hAB : noOverlapB A B = true) (hBA : noOverlapB B A = true)
    (hApos : A ≠ []) (hle : pA + A.length ≤ pB + B.length) :
    pA + A.length ≤ (pB + B.length) - B.length := by
  rw [Nat.add_sub_cancel]
  exact pair_step hA hB hAB hBA hApos hle

theorem adj_fact {source : List Char} {pv pg pf pc : Nat}
    (hv : findSub source kwVERTEX = some pv)
    (hg : findSub source kwGEOMETRY = some pg)
    (hf : findSub source kwFRAGMENT = some pf)
    (hc : findSub source kwCOMPUTE = some pc) :
    ∀ d e : ShaderData,
      d ∈ [(⟨pv + 6, vertexType⟩ : ShaderData), ⟨pg + 8, geometryType⟩,
           ⟨pf + 8, fragmentType⟩, ⟨pc + 7, computeType⟩] →
      e ∈ [(⟨pv + 6, vertexType⟩ : ShaderData), ⟨pg + 8, geometryType⟩,
           ⟨pf + 8, fragmentType⟩, ⟨pc + 7, computeType⟩] →
      d ≠ e → d.sourceStart ≤ e.sourceStart →
      d.sourceStart ≤ e.sourceStart - e.type.name.length := by
  have mv : matchesAt source kwVERTEX pv = true := (findSub_some hv).1
  have mg : matchesAt source kwGEOMETRY pg = true := (findSub_some hg).1
  have mf : matchesAt source kwFRAGMENT pf = true := (findSub_some hf).1
  have mc : matchesAt source kwCOMPUTE pc = true := (findSub_some hc).1
  intro d e hd he hne hle
  simp only [List.mem_cons, List.not_mem_nil, or_false] at hd he
  rcases hd with rfl | rfl | rfl | rfl <;> rcases he with rfl | rfl | rfl | rfl
  · exact absurd rfl hne
  · exact pair_goal mv mg (by decide) (by decide) (by decide) hle
  · exact pair_goal mv mf (by decide) (by decide) (by decide) hle
  · exact pair_goal mv mc (by decide) (by decide) (by decide) hle
  · exact pair_goal mg mv (by decide) (by decide) (by decide) hle
  · exact absurd rfl hne
  · exact pair_goal mg mf (by decide) (by decide) (by decide) hle
  · exact pair_goal mg mc (by decide) (by decide) (by decide) hle
  · exact pair_goal mf mv (by decide) (by decide) (by decide) hle
  · exact pair_goal mf mg (by decide) (by decide) (by decide) hle
  · exact absurd rfl hne
  · exact pair_goal mf mc (by decide) (by decide) (by decide) hle
  · exact pair_goal mc mv (by decide) (by decide) (by decide) hle
  · exact pair_goal mc mg (by decide) (by decide) (by decide) hle
  · exact pair_goal mc mf (by decide) (by decide) (by decide) hle
  · exact absurd rfl hne

theorem elem_fact {source : List Char} {pv pg pf pc : Nat}
    (hv : findSub source kwVERTEX = some pv)
    (hg : findSub source kwGEOMETRY = some pg)
    (hf : findSub source kwFRAGMENT = some pf)
    (hc : findSub source kwCOMPUTE = some pc) :
    ∀ d : ShaderData,
      d ∈ [(⟨pv + 6, vertexType⟩ : ShaderData), ⟨pg + 8, geometryType⟩,
           ⟨pf + 8, fragmentType⟩, ⟨pc + 7, computeType⟩] →
      0 < d.type.name.length ∧ d.type.name.length ≤ d.sourceStart ∧
      findSub source d.type.name = some (d.sourceStart - d.type.name.length) := by
  intro d hd
  simp only [List.mem_cons, List.not_mem_nil, or_false] at hd
  rcases hd with rfl | rfl | rfl | rfl
  · exact ⟨by simp [vertexType, kwVERTEX], Nat.le_add_left _ _, hv⟩
  · exact ⟨by simp [geometryType, kwGEOMETRY], Nat.le_add_left _ _, hg⟩
  · exact ⟨by simp [fragmentType, kwFRAGMENT], Nat.le_add_left _ _, hf⟩
  · exact ⟨by simp [computeType, kwCOMPUTE], Nat.le_add_left _ _, hc⟩

/-- C1: for a composite source containing all four stage markers, the stage
splitter of `createProgram` yields exactly four slices, in ascending order of
each marker's first occurrence; slice `i` runs from just past its keyword up
to (excluding) the first character of the next marker's keyword, the last
slice to end of string. -/
theorem C1_stage_splitter {source : List Char} {pv pg pf pc : Nat}
    (hv : findSub source kwVERTEX = some pv)
    (hg : findSub source kwGEOMETRY = some pg)
    (hf : findSub source kwFRAGMENT = some pf)
    (hc : findSub source kwCOMPUTE = some pc) :
    ∃ d0 d1 d2 d3 : ShaderData,
      splitStages source =
        [(d0, (source.drop d0.sourceStart).take
                ((d1.sourceStart - d1.type.name.length) - d0.sourceStart)),
         (d1, (source.drop d1.sourceStart).take
                ((d2.sourceStart - d2.type.name.length) - d1.sourceStart)),
         (d2, (source.drop d2.sourceStart).take
                ((d3.sourceStart - d3.type.name.length) - d2.sourceStart)),
         (d3, source.drop d3.sourceStart)] ∧
      [d0.type, d1.type, d2.type, d3.type].Perm shaderTypes ∧
      (∀ d ∈ [d0, d1, d2, d3],
         d.type.name.length ≤ d.sourceStart ∧
         findSub source d.type.name = some (d.sourceStart - d.type.name.length)) ∧
      d0.sourceStart - d0.type.name.length < d1.sourceStart - d1.type.name.length ∧
      d1.sourceStart - d1.type.name.length < d2.sourceStart - d2.type.name.length ∧
      d2.sourceStart - d2.type.name.length < d3.sourceStart - d3.type.name.length ∧
      d0.sourceStart ≤ d1.sourceStart - d1.type.name.length ∧
      d1.sourceStart ≤ d2.sourceStart - d2.type.name.length ∧
      d2.sourceStart ≤ d3.sourceStart - d3.type.name.length := by
  have hcol := collectStages_eq hv hg hf hc
  have hperm : (sortStages (collectStages source)).Perm (collectStages source) :=
    List.perm_insertionSort sdLE (collectStages source)
  have hsorted : List.Sorted sdLE (sortStages (collectStages source)) :=
    List.sorted_insertionSort sdLE (collectStages source)
  have hlen : (sortStages (collectStages source)).length = 4 := by
    rw [hperm.length_eq, hcol]; rfl
  obtain ⟨d0, d1, d2, d3, hL⟩ := exists_four hlen
  have hmem : ∀ d ∈ [d0, d1, d2, d3],
      d ∈ [(⟨pv + 6, vertexType⟩ : ShaderData), ⟨pg + 8, geometryType⟩,
           ⟨pf + 8, fragmentType⟩, ⟨pc + 7, computeType⟩] := by
    intro d hd
    have : d ∈ sortStages (collectStages source) := by rw [hL]; exact hd
    rw [← hcol]
    exact hperm.mem_iff.mp this
  have hnd : ([d0, d1, d2, d3] : List ShaderData).Nodup := by
    rw [← hL]
    exact (hperm.nodup_iff).mpr (hcol ▸ collect_nodup)
  rw [hL] at hsorted
  simp only [List.sorted_cons, List.mem_cons, List.mem_singleton, List.not_mem_nil,
    or_false, forall_eq_or_imp, forall_eq, List.sorted_nil, and_true] at hsorted
  obtain ⟨⟨s01, s02, s03⟩, ⟨s12, s13⟩, s23, -⟩ := hsorted
  simp only [List.nodup_cons, List.mem_cons, List.mem_singleton, List.not_mem_nil,
    or_false, not_or, List.nodup_nil, and_true] at hnd
  obtain ⟨⟨n01, n02, n03⟩, ⟨n12, n13⟩, n23, -⟩ := hnd
  have m0 := hmem d0 (by simp)
  have m1 := hmem d1 (by simp)
  have m2 := hmem d2 (by simp)
  have m3 := hmem d3 (by simp)
  have e0 := elem_fact hv hg hf hc d0 m0
  have e1 := elem_fact hv hg hf hc d1 m1
  have e2 := elem_fact hv hg hf hc d2 m2
  have e3 := elem_fact hv hg hf hc d3 m3
  have a01 := adj_fact hv hg hf hc d0 d1 m0 m1 n01 s01
  have a12 := adj_fact hv hg hf hc d1 d2 m1 m2 n12 s12
  have a23 := adj_fact hv hg hf hc d2 d3 m2 m3 n23 s23
  refine ⟨d0, d1, d2, d3, ?_, ?_, ?_, ?_, ?_, ?_, a01, a12, a23⟩
  · rw [splitStages, hL]
    simp only [stageSlices]
    rw [size_t_sub_of_le e1.2.1, size_t_sub_of_le a01,
        size_t_sub_of_le e2.2.1, size_t_sub_of_le a12,
        size_t_sub_of_le e3.2.1, size_t_sub_of_le a23]
  · have htypes : [d0.type, d1.type, d2.type, d3.type] =
        ([d0, d1, d2, d3].map ShaderData.type) := rfl
    rw [htypes, ← hL]
    have : ((sortStages (collectStages source)).map ShaderData.type).Perm
        ((collectStages source).map ShaderData.type) := hperm.map ShaderData.type
    refine this.trans ?_
    rw [hcol]
    exact List.Perm.refl _
  · intro d hd
    exact ⟨(elem_fact hv hg hf hc d (hmem d hd)).2.1,
           (elem_fact hv hg hf hc d (hmem d hd)).2.2⟩
  · omega
  · omega
  · omega

/-- Concrete composite source `"VERTEXaGEOMETRYbFRAGMENTcCOMPUTEd"` used to
witness `C1_stage_splitter`. -/
def srcC1 : List Char :=
  ['V', 'E', 'R', 'T', 'E', 'X', 'a',
   'G', 'E', 'O', 'M', 'E', 'T', 'R', 'Y', 'b',
   'F', 'R', 'A', 'G', 'M', 'E', 'N', 'T', 'c',
   'C', 'O', 'M', 'P', 'U', 'T', 'E', 'd']

/-- Witness for `C1_stage_splitter` at a concrete source containing all four
markers. -/
theorem C1_stage_splitter_witness :
    findSub srcC1 kwVERTEX = some 0 ∧ findSub srcC1 kwGEOMETRY = some 7 ∧
    findSub srcC1 kwFRAGMENT = some 16 ∧ findSub srcC1 kwCOMPUTE = some 25 ∧
    (∃ d0 d1 d2 d3 : ShaderData,
      splitStages srcC1 =
        [(d0, (srcC1.drop d0.sourceStart).take
                ((d1.sourceStart - d1.type.name.length) - d0.sourceStart)),
         (d1, (srcC1.drop d1.sourceStart).take
                ((d2.sourceStart - d2.type.name.length) - d1.sourceStart)),
         (d2, (srcC1.drop d2.sourceStart).take
                ((d3.sourceStart - d3.type.name.length) - d2.sourceStart)),
         (d3, srcC1.drop d3.sourceStart)] ∧
      [d0.type, d1.type, d2.type, d3.type].Perm shaderTypes ∧
      (∀ d ∈ [d0, d1, d2, d3],
         d.type.name.length ≤ d.sourceStart ∧
         findSub srcC1 d.type.name = some (d.sourceStart - d.type.name.length)) ∧
      d0.sourceStart - d0.type.name.length < d1.sourceStart - d1.type.name.length ∧
      d1.sourceStart - d1.type.name.length < d2.sourceStart - d2.type.name.length ∧
      d2.sourceStart - d2.type.name.length < d3.sourceStart - d3.type.name.length ∧
      d0.sourceStart ≤ d1.sourceStart - d1.type.name.length ∧
      d1.sourceStart ≤ d2.sourceStart - d2.type.name.length ∧
      d2.sourceStart ≤ d3.sourceStart - d3.type.name.length) :=
  ⟨by decide, by decide, by decide, by decide,
   @C1_stage_splitter srcC1 0 7 16 25 (by decide) (by decide) (by decide) (by decide)⟩

/-! ## Lemmas: the compile loop of `createProgram` -/

theorem compileLoop_ids (env : Env) :
    ∀ (slices : List (ShaderData × List Char)) (k : Nat),
      (compileLoop env slices k).1 = List.range' k slices.length := by
  intro slices
  induction slices with
  | nil => intro k; rfl
  | cons x rest ih =>
    intro k
    obtain ⟨d, src⟩ := x
    simp [compileLoop, ih, List.range'_succ]

theorem compileLoop_err (env : Env) :
    ∀ (slices : List (ShaderData × List Char)) (k : Nat),
      (compileLoop env slices k).2.1 =
        slices.any fun x => !env.compileOk x.1.type.value x.2 := by
  intro slices
  induction slices with
  | nil => intro k; rfl
  | cons x rest ih =>
    intro k
    obtain ⟨d, src⟩ := x
    simp [compileLoop, ih]

theorem compileLoop_trace (env : Env) :
    ∀ (slices : List (ShaderData × List Char)) (k : Nat),
      (compileLoop env slices k).2.2 =
        ((List.range' k slices.length).map fun i =>
          [GLOp.createShader i, GLOp.compileShader i]).flatten := by
  intro slices
  induction slices with
  | nil => intro k; rfl
  | cons x rest ih =>
    intro k
    obtain ⟨d, src⟩ := x
    simp [compileLoop, ih, List.range'_succ]

/-- Membership in the compile-loop trace. -/
theorem mem_compileLoop_trace (env : Env) (slices : List (ShaderData × List Char))
    (k : Nat) (op : GLOp) :
    op ∈ (compileLoop env slices k).2.2 ↔
      ∃ i, (k ≤ i ∧ i < k + slices.length) ∧
        (op = GLOp.createShader i ∨ op = GLOp.compileShader i) := by
  rw [compileLoop_trace]
  simp only [List.mem_flatten, List.mem_map, List.mem_range'_1]
  constructor
  · rintro ⟨l, ⟨i, hi, rfl⟩, hop⟩
    exact ⟨i, hi, by simpa using hop⟩
  · rintro ⟨i, hi, hop⟩
    exact ⟨[GLOp.createShader i, GLOp.compileShader i], ⟨i, hi, rfl⟩, by simpa using hop⟩

/-- C2: failure semantics of the compile/link pipeline.  If some stage fails
to compile, every stage is still created and compiled (so every diagnostic is
emitted), every created shader object is deleted, no program object is
created, and 0 is returned.  If all stages compile but the link fails, every
shader is detached and deleted, the program object is deleted, and 0 is
returned. -/
theorem C2_compile_pipeline (env : Env) (slices : List (ShaderData × List Char)) :
    ((∃ x ∈ slices, env.compileOk x.1.type.value x.2 = false) →
      (buildFromSlices env slices).1 = 0 ∧
      (∀ i, i < slices.length →
        GLOp.createShader (1 + i) ∈ (buildFromSlices env slices).2 ∧
        GLOp.compileShader (1 + i) ∈ (buildFromSlices env slices).2) ∧
      (∀ sid, GLOp.createShader sid ∈ (buildFromSlices env slices).2 →
        GLOp.deleteShader sid ∈ (buildFromSlices env slices).2) ∧
      (∀ p, GLOp.createProgramObj p ∉ (buildFromSlices env slices).2)) ∧
    ((∀ x ∈ slices, env.compileOk x.1.type.value x.2 = true) →
      env.linkOk (slices.map fun x => (x.1.type.value, x.2)) = false →
      (buildFromSlices env slices).1 = 0 ∧
      (∀ sid, GLOp.createShader sid ∈ (buildFromSlices env slices).2 →
        GLOp.detachShader env.freshProgram sid ∈ (buildFromSlices env slices).2 ∧
        GLOp.deleteShader sid ∈ (buildFromSlices env slices).2) ∧
      GLOp.deleteProgram env.freshProgram ∈ (buildFromSlices env slices).2) := by
  constructor
  · intro h
    obtain ⟨x, hx, hfail⟩ := h
    have herr : (compileLoop env slices 1).2.1 = true := by
      rw [compileLoop_err]
      exact List.any_eq_true.mpr ⟨x, hx, by rw [hfail]; rfl⟩
    have hb : buildFromSlices env slices =
        (0, (compileLoop env slices 1).2.2 ++
            (compileLoop env slices 1).1.map GLOp.deleteShader) := by
      rw [buildFromSlices]
      simp [herr]
    rw [hb]
    refine ⟨rfl, ?_, ?_, ?_⟩
    · intro i hi
      constructor
      · exact List.mem_append_left _
          ((mem_compileLoop_trace env slices 1 _).mpr ⟨1 + i, by omega, Or.inl rfl⟩)
      · exact List.mem_append_left _
          ((mem_compileLoop_trace env slices 1 _).mpr ⟨1 + i, by omega, Or.inr rfl⟩)
    · intro sid hsid
      have : sid ∈ List.range' 1 slices.length := by
        rcases List.mem_append.mp hsid with hin | hin
        · obtain ⟨i, hi, hop⟩ := (mem_compileLoop_trace env slices 1 _).mp hin
          rcases hop with hop | hop
          · obtain rfl : sid = i := by simpa using hop
            exact List.mem_range'_1.mpr ⟨hi.1, hi.2⟩
          · simp at hop
        · rw [compileLoop_ids] at hin
          simp [List.mem_map] at hin
      refine List.mem_append_right _ ?_
      rw [compileLoop_ids]
      exact List.mem_map.mpr ⟨sid, this, rfl⟩
    · intro p hp
      rcases List.mem_append.mp hp with hin | hin
      · obtain ⟨i, _, hop⟩ := (mem_compileLoop_trace env slices 1 _).mp hin
        rcases hop with hop | hop <;> simp at hop
      · rw [compileLoop_ids] at hin
        simp [List.mem_map] at hin
  · intro hok hlink
    have herr : (compileLoop env slices 1).2.1 = false := by
      rw [compileLoop_err]
      refine List.any_eq_false.mpr fun x hx => ?_
      rw [hok x hx]
      simp
    have hb : buildFromSlices env slices =
        (0, ((compileLoop env slices 1).2.2 ++
              [GLOp.createProgramObj env.freshProgram] ++
              (compileLoop env slices 1).1.map (GLOp.attachShader env.freshProgram) ++
              [GLOp.linkProgram env.freshProgram] ++
              ((compileLoop env slices 1).1.map fun sid =>
                [GLOp.detachShader env.freshProgram sid, GLOp.deleteShader sid]).flatten) ++
            [GLOp.deleteProgram env.freshProgram]) := by
      rw [buildFromSlices]
      simp [herr, hlink]
    rw [hb]
    refine ⟨rfl, ?_, by simp⟩
    intro sid hsid
    have hmem : sid ∈ List.range' 1 slices.length := by
      simp only [List.mem_append] at hsid
      rcases hsid with ((((hin | hin) | hin) | hin) | hin) | hin
      · obtain ⟨i, hi, hop⟩ := (mem_compileLoop_trace env slices 1 _).mp hin
        rcases hop with hop | hop
        · obtain rfl : sid = i := by simpa using hop
          exact List.mem_range'_1.mpr ⟨hi.1, hi.2⟩
        · simp at hop
      · simp at hin
      · rw [compileLoop_ids] at hin
        simp [List.mem_map] at hin
      · simp at hin
      · rw [compileLoop_ids] at hin
        simp [List.mem_flatten, List.mem_map] at hin
      · simp at hin
    constructor
    · refine List.mem_append_left _ (List.mem_append_right _ ?_)
      rw [compileLoop_ids]
      exact List.mem_flatten.mpr
        ⟨[GLOp.detachShader env.freshProgram sid, GLOp.deleteShader sid],
         List.mem_map.mpr ⟨sid, hmem, rfl⟩, by simp⟩
    · refine List.mem_append_left _ (List.mem_append_right _ ?_)
      rw [compileLoop_ids]
      exact List.mem_flatten.mpr
        ⟨[GLOp.detachShader env.freshProgram sid, GLOp.deleteShader sid],
         List.mem_map.mpr ⟨sid, hmem, rfl⟩, by simp⟩

/-- Concrete driver oracle for witnessing the pipeline theorems: compiling
the source `"x"` fails, every other source compiles, linking always fails,
`glCreateProgram` hands out 5. -/
def envC2 : Env :=
  ⟨fun _ => 0, fun _ => none, fun _ src => decide (src ≠ ['x']), fun _ => false, 5, fun _ => []⟩

def slicesA : List (ShaderData × List Char) :=
  [(⟨6, vertexType⟩, ['a']), (⟨20, fragmentType⟩, ['x'])]

def slicesB : List (ShaderData × List Char) := [(⟨6, vertexType⟩, ['a'])]

/-- Witness for `C2_compile_pipeline`: a two-stage sequence whose second
stage fails to compile, and a one-stage sequence that compiles but fails to
link. -/
theorem C2_compile_pipeline_witness :
    (∃ x ∈ slicesA, envC2.compileOk x.1.type.value x.2 = false) ∧
    ((buildFromSlices envC2 slicesA).1 = 0 ∧
      (∀ i, i < slicesA.length →
        GLOp.createShader (1 + i) ∈ (buildFromSlices envC2 slicesA).2 ∧
        GLOp.compileShader (1 + i) ∈ (buildFromSlices envC2 slicesA).2) ∧
      (∀ sid, GLOp.createShader sid ∈ (buildFromSlices envC2 slicesA).2 →
        GLOp.deleteShader sid ∈ (buildFromSlices envC2 slicesA).2) ∧
      (∀ p, GLOp.createProgramObj p ∉ (buildFromSlices envC2 slicesA).2)) ∧
    (∀ x ∈ slicesB, envC2.compileOk x.1.type.value x.2 = true) ∧
    envC2.linkOk (slicesB.map fun x => (x.1.type.value, x.2)) = false ∧
    ((buildFromSlices envC2 slicesB).1 = 0 ∧
      (∀ sid, GLOp.createShader sid ∈ (buildFromSlices envC2 slicesB).2 →
        GLOp.detachShader envC2.freshProgram sid ∈ (buildFromSlices envC2 slicesB).2 ∧
        GLOp.deleteShader sid ∈ (buildFromSlices envC2 slicesB).2) ∧
      GLOp.deleteProgram envC2.freshProgram ∈ (buildFromSlices envC2 slicesB).2) :=
  ⟨by decide, (C2_compile_pipeline envC2 slicesA).1 (by decide), by decide, by decide,
   (C2_compile_pipeline envC2 slicesB).2 (by decide) (by decide)⟩

/-! ## Lemmas: the INCLUDE-resolving loader -/

theorem kwINCLUDE_length : kwINCLUDE.length = 7 := rfl

theorem findCharAux_some {s : List Char} {c : Char} :
    ∀ {fuel i p : Nat}, findCharAux s c fuel i = some p → s[p]? = some c ∧ i ≤ p := by
  intro fuel
  induction fuel with
  | zero => intro i p h; simp [findCharAux] at h
  | succ n ih =>
    intro i p h
    rw [findCharAux] at h
    by_cases hm : s[i]? = some c
    · rw [if_pos hm] at h
      obtain rfl : i = p := Option.some.inj h
      exact ⟨hm, Nat.le_refl _⟩
    · rw [if_neg hm] at h
      obtain ⟨h1, h2⟩ := ih h
      exact ⟨h1, Nat.le_trans (Nat.le_succ i) h2⟩

theorem findCharFrom_some {s : List Char} {c : Char} {i p : Nat}
    (h : findCharFrom s c i = some p) :
    s[p]? = some c ∧ i ≤ p ∧ p < s.length := by
  obtain ⟨h1, h2⟩ := findCharAux_some h
  exact ⟨h1, h2, (List.getElem?_eq_some.mp h1).1⟩

/-- Identity part of the loader contract: contents without the `INCLUDE`
token are returned unchanged. -/
theorem loadSourceFromFile_id (env : Env) (fuel : Nat) (f content : List Char)
    (hf : env.fileContents f = some content)
    (h : findSub content kwINCLUDE = none) :
    loadSourceFromFile env (fuel + 1) f = content := by
  simp [loadSourceFromFile, hf, h]

/-- Splice part of the loader contract: the first directive — from the
`INCLUDE` token through the terminating newline — is replaced by the
recursively loaded contents of the quoted file. -/
theorem loadSourceFromFile_splice (env : Env) (fuel : Nat) (f content : List Char)
    (hf : env.fileContents f = some content) (hlen : content.length < 2 ^ 64)
    (lf nl q1 q2 : Nat)
    (h1 : findSub content kwINCLUDE = some lf)
    (h2 : findCharFrom content '\n' lf = some nl)
    (h3 : findCharFrom content '"' (lf + 7) = some q1)
    (h4 : findCharFrom content '"' (q1 + 1) = some q2) :
    loadSourceFromFile env (fuel + 1) f =
      content.take lf ++
      loadSourceFromFile env fuel ((content.drop (q1 + 1)).take (q2 - (q1 + 1))) ++
      content.drop (nl + 1) := by
  obtain ⟨hnlc, hlfnl, hnllt⟩ := findCharFrom_some h2
  obtain ⟨hq1c, hq1ge, hq1lt⟩ := findCharFrom_some h3
  obtain ⟨hq2c, hq2ge, hq2lt⟩ := findCharFrom_some h4
  have hmod1 : (nl + 1) % 2 ^ 64 = nl + 1 := Nat.mod_eq_of_lt (by omega)
  have hmod2 : (q1 + 1) % 2 ^ 64 = q1 + 1 := Nat.mod_eq_of_lt (by omega)
  simp only [loadSourceFromFile, hf, h1, strFind, kwINCLUDE_length, h2, h3,
    Option.getD_some, hmod1, hmod2, h4, size_t_sub_of_le hq2ge]
  have harr : lf + size_t_sub (nl + 1) lf = nl + 1 := by
    rw [size_t_sub_of_le (by omega)]; omega
  rw [harr]
  have hlen1 : (content.take (nl + 1)).length = nl + 1 := by
    rw [List.length_take]; omega
  have hB : ∀ rest : List Char,
      (content.take (nl + 1) ++ rest).drop (nl + 1) = rest := by
    intro rest
    have h := List.drop_left (content.take (nl + 1)) rest
    rwa [hlen1] at h
  have hA : ∀ rest : List Char,
      (content.take (nl + 1) ++ rest).take lf = content.take lf := by
    intro rest
    rw [List.take_append_eq_append_take, hlen1]
    have e2 : lf - (nl + 1) = 0 := by omega
    rw [e2, List.take_zero, List.append_nil, List.take_take]
    congr 1
    omega
  rw [List.append_assoc, hA, hB, ← List.append_assoc]

/-- C7: the loader is the identity on contents with no `INCLUDE` token;
with a directive it replaces the first directive line — from the token
through the terminating newline — by the recursively loaded contents of the
quoted file, keeping the text before the token and after the newline; and a
file including a directive-free file therefore flattens to
prefix-plus-included-contents-plus-suffix in place, so a chain A includes B
includes C flattens by iterating the splice. -/
theorem C7_include_loader (env : Env) (fuel : Nat) (f content : List Char)
    (hf : env.fileContents f = some content) (hlen : content.length < 2 ^ 64) :
    (findSub content kwINCLUDE = none → loadSourceFromFile env (fuel + 1) f = content) ∧
    (∀ lf nl q1 q2 : Nat,
      findSub content kwINCLUDE = some lf →
      findCharFrom content '\n' lf = some nl →
      findCharFrom content '"' (lf + 7) = some q1 →
      findCharFrom content '"' (q1 + 1) = some q2 →
      loadSourceFromFile env (fuel + 1) f =
        content.take lf ++
        loadSourceFromFile env fuel ((content.drop (q1 + 1)).take (q2 - (q1 + 1))) ++
        content.drop (nl + 1)) ∧
    (∀ (lf nl q1 q2 : Nat) (content2 : List Char),
      findSub content kwINCLUDE = some lf →
      findCharFrom content '\n' lf = some nl →
      findCharFrom content '"' (lf + 7) = some q1 →
      findCharFrom content '"' (q1 + 1) = some q2 →
      env.fileContents ((content.drop (q1 + 1)).take (q2 - (q1 + 1))) = some content2 →
      findSub content2 kwINCLUDE = none →
      loadSourceFromFile env (fuel + 2) f =
        content.take lf ++ content2 ++ content.drop (nl + 1)) := by
  refine ⟨loadSourceFromFile_id env fuel f content hf,
    loadSourceFromFile_splice env fuel f content hf hlen, ?_⟩
  intro lf nl q1 q2 content2 h1 h2 h3 h4 hf2 hnone
  show loadSourceFromFile env (fuel + 1 + 1) f = _
  rw [loadSourceFromFile_splice env (fuel + 1) f content hf hlen lf nl q1 q2 h1 h2 h3 h4,
      loadSourceFromFile_id env fuel _ content2 hf2 hnone]

/-- Contents of file `"A"`: `INCLUDE "B"\ntl`. -/
def contentA : List Char :=
  ['I', 'N', 'C', 'L', 'U', 'D', 'E', ' ', '"', 'B', '"', '\n', 't', 'l']

/-- Contents of file `"B"`: `x\nINCLUDE "C"\ny`. -/
def contentB : List Char :=
  ['x', '\n', 'I', 'N', 'C', 'L', 'U', 'D', 'E', ' ', '"', 'C', '"', '\n', 'y']

/-- Contents of file `"C"`: `zz` (no directive). -/
def contentC : List Char := ['z', 'z']

/-- File system for the include-chain witness: `A` includes `B` includes `C`. -/
def envC7 : Env :=
  ⟨fun _ => 0,
   fun f =>
     if f = ['A'] then some contentA
     else if f = ['B'] then some contentB
     else if f = ['C'] then some contentC
     else none,
   fun _ _ => true, fun _ => true, 1, fun _ => []⟩

/-- Witness for `C7_include_loader`: the splice equation at file `A`, the
identity at the include-free file `C`, the flattened one-level include at
file `B`, and the fully flattened chain. -/
theorem C7_include_loader_witness :
    findSub contentA kwINCLUDE = some 0 ∧
    findCharFrom contentA '\n' 0 = some 11 ∧
    findCharFrom contentA '"' 7 = some 8 ∧
    findCharFrom contentA '"' 9 = some 10 ∧
    loadSourceFromFile envC7 3 ['A'] =
      contentA.take 0 ++
      loadSourceFromFile envC7 2 ((contentA.drop (8 + 1)).take (10 - (8 + 1))) ++
      contentA.drop (11 + 1) ∧
    findSub contentC kwINCLUDE = none ∧
    loadSourceFromFile envC7 1 ['C'] = contentC ∧
    envC7.fileContents ((contentB.drop (10 + 1)).take (12 - (10 + 1))) = some contentC ∧
    loadSourceFromFile envC7 2 ['B'] =
      contentB.take 2 ++ contentC ++ contentB.drop (13 + 1) ∧
    loadSourceFromFile envC7 3 ['A'] = ['x', '\n', 'z', 'z', 'y', 't', 'l'] :=
  ⟨by decide, by decide, by decide, by decide,
   (C7_include_loader envC7 2 ['A'] contentA (by decide) (by decide)).2.1 0 11 8 10
     (by decide) (by decide) (by decide) (by decide),
   by decide,
   (C7_include_loader envC7 0 ['C'] contentC (by decide) (by decide)).1 (by decide),
   by decide,
   (C7_include_loader envC7 0 ['B'] contentB (by decide) (by decide)).2.2 2 13 10 12
     contentC (by decide) (by decide) (by decide) (by decide) (by decide) (by decide),
   by decide⟩

/-! ## Lemmas: createProgram outcomes and the uniform table -/

theorem createProgram_fail_of (env : Env) (source : List Char)
    (h : (∃ x ∈ splitStages source, env.compileOk x.1.type.value x.2 = false) ∨
      env.linkOk ((splitStages source).map fun x => (x.1.type.value, x.2)) = false) :
    (createProgram env source).1 = 0 := by
  rw [createProgram, buildFromSlices]
  rcases h with ⟨x, hx, hfail⟩ | hlink
  · have herr : (compileLoop env (splitStages source) 1).2.1 = true := by
      rw [compileLoop_err]
      exact List.any_eq_true.mpr ⟨x, hx, by rw [hfail]; rfl⟩
    simp [herr]
  · by_cases herr : (compileLoop env (splitStages source) 1).2.1 = true
    · simp [herr]
    · simp only [Bool.not_eq_true] at herr
      simp [herr, hlink]

theorem createProgram_success_no_deleteProgram {env : Env} {source : List Char}
    (h : (createProgram env source).1 ≠ 0) (q : Nat) :
    GLOp.deleteProgram q ∉ (createProgram env source).2 := by
  rw [createProgram, buildFromSlices] at h ⊢
  by_cases herr : (compileLoop env (splitStages source) 1).2.1 = true
  · simp [herr] at h
  · simp only [Bool.not_eq_true] at herr
    by_cases hlink :
        env.linkOk ((splitStages source).map fun x => (x.1.type.value, x.2)) = true
    · simp only [herr, hlink, Bool.false_eq_true, if_false, if_true]
      intro hmem
      simp only [List.mem_append] at hmem
      rcases hmem with (((hin | hin) | hin) | hin) | hin
      · obtain ⟨i, _, hop⟩ := (mem_compileLoop_trace env (splitStages source) 1 _).mp hin
        rcases hop with hop | hop <;> simp at hop
      · simp at hin
      · simp [List.mem_map] at hin
      · simp at hin
      · simp only [List.mem_flatten, List.mem_map] at hin
        obtain ⟨l, ⟨sid, _, rfl⟩, hop⟩ := hin
        simp at hop
    · simp only [Bool.not_eq_true] at hlink
      simp [herr, hlink] at h

theorem lookupTable_cons_eq {k1 : List Char} {v1 : Int} {rest : List (List Char × Int)}
    {k2 : List Char} (h : k1 = k2) :
    lookupTable ((k1, v1) :: rest) k2 = some v1 := by
  simp [lookupTable, List.find?_cons_of_pos, h]

theorem lookupTable_cons_ne {k1 : List Char} {v1 : Int} {rest : List (List Char × Int)}
    {k2 : List Char} (h : k1 ≠ k2) :
    lookupTable ((k1, v1) :: rest) k2 = lookupTable rest k2 := by
  simp only [lookupTable]
  rw [List.find?_cons_of_neg]
  simp [h]

theorem lookupTable_mapInsert (m : List (List Char × Int)) (k : List Char) (v : Int)
    (k2 : List Char) :
    lookupTable (mapInsert m k v) k2 = if k2 = k then some v else lookupTable m k2 := by
  induction m with
  | nil =>
    simp only [mapInsert]
    by_cases h : k2 = k
    · rw [if_pos h]
      exact lookupTable_cons_eq h.symm
    · rw [if_neg h, lookupTable_cons_ne (fun hc => h hc.symm)]
  | cons kv rest ih =>
    obtain ⟨k1, v1⟩ := kv
    rw [mapInsert]
    by_cases h1 : k1 = k
    · rw [if_pos h1]
      by_cases h2 : k2 = k
      · rw [if_pos h2, lookupTable_cons_eq h2.symm]
      · rw [if_neg h2, lookupTable_cons_ne (fun hc => h2 hc.symm),
            lookupTable_cons_ne (fun hc => h2 (hc.symm.trans h1))]
    · rw [if_neg h1]
      by_cases h2 : k2 = k1
      · subst h2
        rw [if_neg h1, lookupTable_cons_eq rfl, lookupTable_cons_eq rfl]
      · rw [lookupTable_cons_ne (fun hc => h2 hc.symm), ih,
            lookupTable_cons_ne (fun hc => h2 hc.symm)]

theorem lookupTable_foldl (us : List (List Char × Int)) :
    ∀ (m : List (List Char × Int)) (k : List Char),
      (lookupTable (us.foldl (fun m kv => mapInsert m kv.1 kv.2) m) k).isSome ↔
        k ∈ us.map Prod.fst ∨ (lookupTable m k).isSome := by
  induction us with
  | nil => simp
  | cons kv rest ih =>
    intro m k
    simp only [List.foldl_cons, List.map_cons, List.mem_cons]
    rw [ih, lookupTable_mapInsert]
    by_cases h : k = kv.1 <;> simp [h]

theorem lookupTable_buildTable (us : List (List Char × Int)) (k : List Char) :
    (lookupTable (buildTable us) k).isSome ↔ k ∈ us.map Prod.fst := by
  rw [buildTable, lookupTable_foldl]
  simp [lookupTable, List.find?]

/-! ## Lemmas: fields preserved by swapProgram and reload -/

theorem swapProgram_preserves (env : Env) (source : List Char) (s : Shader) :
    (Shader.swapProgram env source s).1.accumulator = s.accumulator ∧
    (Shader.swapProgram env source s).1.fileLastWriteTime = s.fileLastWriteTime ∧
    (Shader.swapProgram env source s).1.id = s.id ∧
    (Shader.swapProgram env source s).1.isSourceFromFile = s.isSourceFromFile := by
  rw [Shader.swapProgram]
  by_cases h : (createProgram env source).1 = 0 <;> simp [h]

theorem reload_accumulator (env : Env) (fuel : Nat) (s : Shader) :
    (Shader.reload env fuel s).1.accumulator = s.accumulator := by
  rw [Shader.reload]
  by_cases h1 : s.isSourceFromFile = false
  · simp [h1]
  · simp only [h1, if_false]
    by_cases h2 : getFileLastWriteTime env s.id = fileTimeMin ∨
        getFileLastWriteTime env s.id = s.fileLastWriteTime
    · simp [h2]
    · simp only [h2, if_false]
      by_cases h3 : (loadSourceFromFile env fuel s.id).length ≠ 0
      · rw [if_pos h3]
        exact (swapProgram_preserves env _ _).1
      · rw [if_neg h3]
        simp

/-- C3: a reload that observes a changed modification time but whose rebuild
fails (source empty, a stage fails to compile, or the link fails) leaves the
program handle, the uniform table and `isValid()` untouched; only the
recorded timestamp changes, to the newly observed time. -/
theorem C3_reload_failure_preserves_state (env : Env) (fuel : Nat) (s : Shader)
    (hfile : s.isSourceFromFile = true)
    (hmin : getFileLastWriteTime env s.id ≠ fileTimeMin)
    (hchg : getFileLastWriteTime env s.id ≠ s.fileLastWriteTime)
    (hfail : loadSourceFromFile env fuel s.id = [] ∨
      (∃ x ∈ splitStages (loadSourceFromFile env fuel s.id),
        env.compileOk x.1.type.value x.2 = false) ∨
      env.linkOk ((splitStages (loadSourceFromFile env fuel s.id)).map
        fun x => (x.1.type.value, x.2)) = false) :
    (Shader.reload env fuel s).1 =
      { s with fileLastWriteTime := getFileLastWriteTime env s.id } ∧
    (Shader.reload env fuel s).1.programId = s.programId ∧
    (Shader.reload env fuel s).1.uniformLocations = s.uniformLocations ∧
    (Shader.reload env fuel s).1.isValid = s.isValid ∧
    (Shader.reload env fuel s).1.accumulator = s.accumulator ∧
    (Shader.reload env fuel s).1.fileLastWriteTime = getFileLastWriteTime env s.id := by
  have hmain : (Shader.reload env fuel s).1 =
      { s with fileLastWriteTime := getFileLastWriteTime env s.id } := by
    rw [Shader.reload, if_neg (by simp [hfile]), if_neg (not_or.mpr ⟨hmin, hchg⟩)]
    by_cases h3 : (loadSourceFromFile env fuel s.id).length ≠ 0
    · rw [if_pos h3]
      have hz : (createProgram env (loadSourceFromFile env fuel s.id)).1 = 0 := by
        apply createProgram_fail_of
        rcases hfail with hempty | h | h
        · exact absurd (by rw [hempty]; rfl) h3
        · exact Or.inl h
        · exact Or.inr h
      rw [Shader.swapProgram]
      simp [hz]
    · rw [if_neg h3]
  exact ⟨hmain, by rw [hmain], by rw [hmain], by rw [hmain]; rfl, by rw [hmain],
    by rw [hmain]⟩

def s3 : Shader := ⟨['F'], 7, [(['u'], 3)], true, 5, 0⟩

/-- File at time 9 whose source compiles on no stage. -/
def env3 : Env := ⟨fun _ => 9, fun _ => some srcC1, fun _ _ => false, fun _ => true, 42, fun _ => []⟩

/-- Witness for `C3_reload_failure_preserves_state`: file changed (5 → 9) but
every stage fails to compile; only the timestamp moves. -/
theorem C3_reload_failure_preserves_state_witness :
    s3.isSourceFromFile = true ∧
    getFileLastWriteTime env3 s3.id ≠ fileTimeMin ∧
    getFileLastWriteTime env3 s3.id ≠ s3.fileLastWriteTime ∧
    (∃ x ∈ splitStages (loadSourceFromFile env3 1 s3.id),
      env3.compileOk x.1.type.value x.2 = false) ∧
    (Shader.reload env3 1 s3).1 =
      { s3 with fileLastWriteTime := getFileLastWriteTime env3 s3.id } ∧
    (Shader.reload env3 1 s3).1.programId = s3.programId ∧
    (Shader.reload env3 1 s3).1.uniformLocations = s3.uniformLocations ∧
    (Shader.reload env3 1 s3).1.isValid = s3.isValid ∧
    (Shader.reload env3 1 s3).1.fileLastWriteTime = getFileLastWriteTime env3 s3.id :=
  have h := C3_reload_failure_preserves_state env3 1 s3 (by decide) (by decide) (by decide)
    (Or.inr (Or.inl (by decide)))
  ⟨by decide, by decide, by decide, by decide, h.1, h.2.1, h.2.2.1, h.2.2.2.1, h.2.2.2.2.2⟩

/-- C4: when the pipeline succeeds, `swapProgram` installs the new handle,
rebuilds the uniform table wholesale from the new program's active uniforms
(a name is present iff the new program reports it), and deletes the previous
handle exactly once (not at all when there was none). -/
theorem C4_swap_success (env : Env) (source : List Char) (s : Shader)
    (h : (createProgram env source).1 ≠ 0) :
    (Shader.swapProgram env source s).1.programId = (createProgram env source).1 ∧
    (Shader.swapProgram env source s).1.uniformLocations =
      buildTable (env.uniforms source) ∧
    (∀ name, (lookupTable (Shader.swapProgram env source s).1.uniformLocations
        name).isSome ↔ name ∈ (env.uniforms source).map Prod.fst) ∧
    (s.programId ≠ 0 →
      (Shader.swapProgram env source s).2.count (GLOp.deleteProgram s.programId) = 1) ∧
    (s.programId = 0 →
      ∀ q, GLOp.deleteProgram q ∉ (Shader.swapProgram env source s).2) := by
  have hswap : Shader.swapProgram env source s =
      ({ s with programId := (createProgram env source).1,
                uniformLocations := buildTable (env.uniforms source) },
       (createProgram env source).2 ++
         (if s.programId ≠ 0 then [GLOp.deleteProgram s.programId] else [])) := by
    rw [Shader.swapProgram]
    simp [h]
  rw [hswap]
  refine ⟨rfl, rfl, fun name => lookupTable_buildTable _ _, ?_, ?_⟩
  · intro hold
    rw [if_pos hold, List.count_append,
        List.count_eq_zero.mpr (createProgram_success_no_deleteProgram h _)]
    simp
  · intro hzero q hq
    rw [if_neg (by simp [hzero])] at hq
    exact createProgram_success_no_deleteProgram h q (by simpa using hq)

/-- Driver for the successful-swap witness: everything compiles and links,
program id 42, two active uniforms. -/
def env4 : Env :=
  ⟨fun _ => 0, fun _ => none, fun _ _ => true, fun _ => true, 42,
   fun _ => [(['u'], 0), (['w'], 3)]⟩

def s4 : Shader := ⟨['i'], 7, [(['o'], 1)], false, 0, 0⟩

/-- Witness for `C4_swap_success`: old program 7 released exactly once, new
handle 42 installed, table rebuilt (old name gone, new names present). -/
theorem C4_swap_success_witness :
    (createProgram env4 srcC1).1 ≠ 0 ∧
    (Shader.swapProgram env4 srcC1 s4).1.programId = (createProgram env4 srcC1).1 ∧
    (Shader.swapProgram env4 srcC1 s4).1.uniformLocations =
      buildTable (env4.uniforms srcC1) ∧
    (∀ name, (lookupTable (Shader.swapProgram env4 srcC1 s4).1.uniformLocations
        name).isSome ↔ name ∈ (env4.uniforms srcC1).map Prod.fst) ∧
    (Shader.swapProgram env4 srcC1 s4).2.count (GLOp.deleteProgram s4.programId) = 1 :=
  have h := C4_swap_success env4 srcC1 s4 (by decide)
  ⟨by decide, h.1, h.2.1, h.2.2.1, h.2.2.2.1 (by decide)⟩

/-- C5 (amended): for a file-backed shader, `reload` is a no-op exactly when
the timestamp fetch fails or the fetched time *equals* the recorded one; any
*different* fetched time — newer or older — triggers a rebuild attempt and
the recorded timestamp is set (possibly backwards) to the fetched value. -/
theorem C5_reload_trigger_condition (env : Env) (fuel : Nat) (s : Shader)
    (hfile : s.isSourceFromFile = true) :
    (getFileLastWriteTime env s.id = fileTimeMin ∨
        getFileLastWriteTime env s.id = s.fileLastWriteTime →
      Shader.reload env fuel s = (s, [])) ∧
    (getFileLastWriteTime env s.id ≠ fileTimeMin →
      getFileLastWriteTime env s.id ≠ s.fileLastWriteTime →
      (Shader.reload env fuel s).1.fileLastWriteTime = getFileLastWriteTime env s.id) := by
  constructor
  · intro h
    rw [Shader.reload, if_neg (by simp [hfile]), if_pos h]
  · intro hmin hchg
    rw [Shader.reload, if_neg (by simp [hfile]), if_neg (not_or.mpr ⟨hmin, hchg⟩)]
    by_cases h3 : (loadSourceFromFile env fuel s.id).length ≠ 0
    · rw [if_pos h3]
      exact (swapProgram_preserves env _ _).2.1
    · rw [if_neg h3]

def s5 : Shader := ⟨['F'], 7, [], true, 5, 0⟩

/-- File whose fetched modification time 3 is *older* than the recorded 5;
source compiles and links fine. -/
def env5 : Env := ⟨fun _ => 3, fun _ => some srcC1, fun _ _ => true, fun _ => true, 42, fun _ => []⟩

/-- Counterexample to C5 as stated: the fetched time 3 is older than the
recorded 5 (not strictly greater), yet `reload` is not a no-op — it rebuilds
(program 7 → 42) and moves the recorded timestamp *backwards* to 3. -/
theorem C5_counterexample :
    getFileLastWriteTime env5 s5.id < s5.fileLastWriteTime ∧
    (Shader.reload env5 1 s5).1.fileLastWriteTime = 3 ∧
    (Shader.reload env5 1 s5).1.fileLastWriteTime < s5.fileLastWriteTime ∧
    (Shader.reload env5 1 s5).1.programId ≠ s5.programId := by decide

/-- Same file system but with fetched time equal to the recorded 5. -/
def env5b : Env := ⟨fun _ => 5, fun _ => some srcC1, fun _ _ => true, fun _ => true, 42, fun _ => []⟩

/-- Witness for `C5_reload_trigger_condition`: equal timestamp is a no-op;
the older timestamp 3 triggers and is recorded. -/
theorem C5_reload_trigger_condition_witness :
    s5.isSourceFromFile = true ∧
    getFileLastWriteTime env5b s5.id = s5.fileLastWriteTime ∧
    Shader.reload env5b 1 s5 = (s5, []) ∧
    getFileLastWriteTime env5 s5.id ≠ fileTimeMin ∧
    getFileLastWriteTime env5 s5.id ≠ s5.fileLastWriteTime ∧
    (Shader.reload env5 1 s5).1.fileLastWriteTime = getFileLastWriteTime env5 s5.id :=
  ⟨by decide, by decide,
   (C5_reload_trigger_condition env5b 1 s5 (by decide)).1 (Or.inr (by decide)),
   by decide, by decide,
   (C5_reload_trigger_condition env5 1 s5 (by decide)).2 (by decide) (by decide)⟩

/-- C6 (amended): a lookup of a name absent from the uniform table emits the
diagnostic and returns the sentinel 0 on *every* call — the method is
`const`, records no past misses, so repeat lookups log again rather than
being silent. -/
theorem C6_lookup_miss_always_logs (s : Shader) (uniformName : List Char)
    (h : lookupTable s.uniformLocations uniformName = none) :
    Shader.getUniformLocation s uniformName = (0, true) ∧
    s.callTwice uniformName = ((0, true), (0, true)) := by
  have h1 : Shader.getUniformLocation s uniformName = (0, true) := by
    rw [Shader.getUniformLocation, h]
  exact ⟨h1, by rw [Shader.callTwice, h1]⟩

def s6 : Shader := ⟨['i'], 7, [], false, 0, 0⟩

/-- Counterexample to C6 as stated: the second lookup of the same unknown
name also emits the diagnostic (second component `true`) — there is no
inactive-name memoization, so repeat lookups are not silent. -/
theorem C6_counterexample :
    (s6.callTwice ['u']).1 = (0, true) ∧ (s6.callTwice ['u']).2.2 = true := by decide

/-- Witness for `C6_lookup_miss_always_logs` at a concrete shader with an
empty uniform table. -/
theorem C6_lookup_miss_always_logs_witness :
    lookupTable s6.uniformLocations ['u'] = none ∧
    Shader.getUniformLocation s6 ['u'] = (0, true) ∧
    s6.callTwice ['u'] = ((0, true), (0, true)) :=
  have h := C6_lookup_miss_always_logs s6 ['u'] (by decide)
  ⟨by decide, h.1, h.2⟩

/-- C8 (amended): `hotReload` adds the frame time to the accumulator; when
the total reaches the threshold 1 it resets the accumulator to exactly zero
and performs exactly one `reload()`; below the threshold nothing is reloaded
and the accumulator keeps the accumulated value.  The call returns no value
(`void`), so the caller is not told whether a swap occurred. -/
theorem C8_hotReload_threshold (env : Env) (fuel : Nat) (dt : ℚ) (s : Shader) :
    (s.accumulator + dt ≥ 1 →
      Shader.hotReload env fuel dt s =
        Shader.reload env fuel { s with accumulator := 0 } ∧
      (Shader.hotReload env fuel dt s).1.accumulator = 0) ∧
    (s.accumulator + dt < 1 →
      Shader.hotReload env fuel dt s =
        ({ s with accumulator := s.accumulator + dt }, [])) := by
  constructor
  · intro h
    have he : Shader.hotReload env fuel dt s =
        Shader.reload env fuel { s with accumulator := 0 } := by
      rw [Shader.hotReload, if_pos h]
    exact ⟨he, by rw [he, reload_accumulator]⟩
  · intro h
    rw [Shader.hotReload, if_neg (not_le.mpr h)]

def s8a : Shader := ⟨['F'], 7, [], true, 5, 0⟩

/-- File changed (5 → 6), rebuild succeeds with program 77. -/
def env8 : Env := ⟨fun _ => 6, fun _ => some srcC1, fun _ _ => true, fun _ => true, 77, fun _ => []⟩

/-- Same driver but the file time still equals the recorded 5: no swap. -/
def env8b : Env := ⟨fun _ => 5, fun _ => some srcC1, fun _ _ => true, fun _ => true, 77, fun _ => []⟩

/-- Counterexample to C8 as stated: `hotReload` is `void` — its returned
value is identical in a run where the triggered reload swaps the program and
in one where it does not, so the call does not return whether a swap
occurred. -/
theorem C8_counterexample :
    Shader.hotReloadRet env8 1 1 s8a = Shader.hotReloadRet env8b 1 1 s8a ∧
    (Shader.hotReload env8 1 1 s8a).1.programId ≠ s8a.programId ∧
    (Shader.hotReload env8b 1 1 s8a).1.programId = s8a.programId := by
  have hcond : s8a.accumulator + 1 ≥ (1 : ℚ) := by simp [s8a]
  refine ⟨rfl, ?_, ?_⟩
  · rw [Shader.hotReload, if_pos hcond]
    decide
  · rw [Shader.hotReload, if_pos hcond]
    decide

/-- Witness for `C8_hotReload_threshold`: frame time 1 reaches the threshold
(accumulator resets to zero, one reload happens); frame time 0 stays below it
(accumulator keeps its value, nothing reloaded). -/
theorem C8_hotReload_threshold_witness :
    s8a.accumulator + 1 ≥ (1 : ℚ) ∧
    Shader.hotReload env8b 1 1 s8a = Shader.reload env8b 1 { s8a with accumulator := 0 } ∧
    (Shader.hotReload env8b 1 1 s8a).1.accumulator = 0 ∧
    s8a.accumulator + 0 < (1 : ℚ) ∧
    Shader.hotReload env8b 1 0 s8a = ({ s8a with accumulator := s8a.accumulator + 0 }, []) :=
  have h1 := (C8_hotReload_threshold env8b 1 1 s8a).1 (by simp [s8a])
  have h2 := (C8_hotReload_threshold env8b 1 0 s8a).2 (by simp [s8a])
  ⟨by simp [s8a], h1.1, h1.2, by simp [s8a], h2⟩

/-- C9 (amended): `bind()` never performs a reload check for any origin — it
only activates the current program (`glUseProgram(programId_)`), leaving the
state untouched; and for a literal-sourced shader `reload()` itself is a
no-op, so such a shader is indeed never reloaded. -/
theorem C9_bind_no_reload (s : Shader) :
    Shader.bind s = (s, [GLOp.useProgram s.programId]) ∧
    (∀ env fuel, s.isSourceFromFile = false → Shader.reload env fuel s = (s, [])) := by
  refine ⟨rfl, fun env fuel hlit => ?_⟩
  rw [Shader.reload, if_pos hlit]

def s9 : Shader := ⟨['F'], 8, [], true, 2, 0⟩

/-- File changed (2 → 6), rebuild would succeed with program 99. -/
def env9 : Env := ⟨fun _ => 6, fun _ => some srcC1, fun _ _ => true, fun _ => true, 99, fun _ => []⟩

/-- Counterexample to C9 as stated: for this hot-reloadable file-backed
shader a reload check would swap in program 99, yet `bind` performs no
reload — it leaves the state unchanged and only issues `glUseProgram` of the
stale program 8. -/
theorem C9_counterexample :
    Shader.bind s9 = (s9, [GLOp.useProgram 8]) ∧
    (Shader.reload env9 1 s9).1.programId = 99 ∧
    (Shader.reload env9 1 s9).1.programId ≠ s9.programId := by decide

def s9lit : Shader := ⟨['i'], 3, [], false, 0, 0⟩

/-- Witness for `C9_bind_no_reload` at a concrete literal-sourced shader. -/
theorem C9_bind_no_reload_witness :
    Shader.bind s9lit = (s9lit, [GLOp.useProgram s9lit.programId]) ∧
    s9lit.isSourceFromFile = false ∧
    Shader.reload env9 1 s9lit = (s9lit, []) :=
  have h := C9_bind_no_reload s9lit
  ⟨h.1, by decide, h.2 env9 1 (by decide)⟩

/-- C10: a lookup of any name absent from the table returns the
value-initialised location 0; this sentinel never equals -1 and coincides
with a legitimate location 0 of a real uniform, so the return value alone
cannot distinguish the two. -/
theorem C10_sentinel_zero (s : Shader) (uniformName : List Char)
    (h : lookupTable s.uniformLocations uniformName = none) :
    (Shader.getUniformLocation s uniformName).1 = 0 ∧
    (Shader.getUniformLocation s uniformName).1 ≠ -1 ∧
    ∃ (s2 : Shader) (uniformName2 : List Char),
      lookupTable s2.uniformLocations uniformName2 = some 0 ∧
      (Shader.getUniformLocation s2 uniformName2).1 =
        (Shader.getUniformLocation s uniformName).1 := by
  have h1 : Shader.getUniformLocation s uniformName = (0, true) := by
    rw [Shader.getUniformLocation, h]
  refine ⟨by rw [h1], by rw [h1]; decide,
    ⟨⟨[], 1, [(['u'], 0)], false, 0, 0⟩, ['u'], by decide, ?_⟩⟩
  rw [h1]
  decide

def s10 : Shader := ⟨['i'], 0, [], false, 0, 0⟩

/-- Witness for `C10_sentinel_zero` at a shader with no valid program and an
empty table. -/
theorem C10_sentinel_zero_witness :
    lookupTable s10.uniformLocations ['M', 'V', 'P'] = none ∧
    s10.isValid = false ∧
    (Shader.getUniformLocation s10 ['M', 'V', 'P']).1 = 0 ∧
    (Shader.getUniformLocation s10 ['M', 'V', 'P']).1 ≠ -1 ∧
    (∃ (s2 : Shader) (uniformName2 : List Char),
      lookupTable s2.uniformLocations uniformName2 = some 0 ∧
      (Shader.getUniformLocation s2 uniformName2).1 =
        (Shader.getUniformLocation s10 ['M', 'V', 'P']).1) :=
  have h := C10_sentinel_zero s10 ['M', 'V', 'P'] (by decide)
  ⟨by decide, by decide, h.1, h.2.1, h.2.2⟩

end sh
